import Mathlib

/-!
Shallow embedding of the k8schedul8r core (window resolver, configuration
sources, control loop, scaler dispatch) together with proofs about the
behaviour of those functions.

Conventions of the embedding:
* Go `int32`/`int64` fields become `Int`; the embedded code only compares
  these values (no arithmetic that could overflow), so the embedding is exact.
* Go `error` results become `Except String α` carrying the formatted message
  (`fmt.Errorf` chains are modelled as string concatenation).
* External effects (file reads, HTTP fetches, Kubernetes API calls) are
  passed in as explicit inputs; the calls a function issues to a backend are
  returned as an explicit trace so that frame conditions can be stated.
-/

set_option autoImplicit false

namespace K8schedul8r

/-- `pkg/model/resource.go`: `ScalingWindow` — a time window for scaling. -/
structure ScalingWindow where
  StartTime : Int
  EndTime : Int
  Replicas : Int
  deriving Repr, DecidableEq

/-- `pkg/model/resource.go`: `Target` — the Kubernetes resource to be scaled. -/
structure Target where
  Name : String
  Kind : String
  APIVersion : String
  deriving Repr, DecidableEq

/-- `pkg/model/resource.go`: `Resource` — a resource with time-based scaling
configuration. -/
structure Resource where
  Name : String
  Namespace : String
  Target : Target
  OriginalReplicas : Int
  Windows : List ScalingWindow
  deriving Repr, DecidableEq

/-- `ScalingWindow.IsActive`: `now >= w.StartTime && now < w.EndTime`. -/
def ScalingWindow.IsActive (w : ScalingWindow) (now : Int) : Bool :=
  decide (now ≥ w.StartTime) && decide (now < w.EndTime)

/-- `ScalingWindow.Validate`. -/
def ScalingWindow.Validate (w : ScalingWindow) : Except String Unit :=
  if w.StartTime ≥ w.EndTime then
    .error "start time must be before end time"
  else if w.Replicas < 0 then
    .error "replicas cannot be negative"
  else
    .ok ()

/-- The `for _, window := range r.Windows` loop body of
`Resource.GetDesiredReplicas`: return the replicas of the first active
window, falling through to `orig` (the resource's `OriginalReplicas`). -/
def firstActiveReplicas (now orig : Int) : List ScalingWindow → Int
  | [] => orig
  | w :: ws => if w.IsActive now then w.Replicas else firstActiveReplicas now orig ws

/-- `Resource.GetDesiredReplicas`. -/
def Resource.GetDesiredReplicas (r : Resource) (now : Int) : Int :=
  firstActiveReplicas now r.OriginalReplicas r.Windows

/-- The `for i, window := range r.Windows` loop of `Resource.Validate`,
carrying the index `i` of the head of the remaining list: the first invalid
window aborts with `window %d is invalid: %w`. -/
def validateWindows : List ScalingWindow → Nat → Except String Unit
  | [], _ => .ok ()
  | w :: ws, i =>
    match w.Validate with
    | .error e => .error ("window " ++ toString i ++ " is invalid: " ++ e)
    | .ok _ => validateWindows ws (i + 1)

/-- `Resource.Validate`. -/
def Resource.Validate (r : Resource) : Except String Unit :=
  if r.Name = "" then .error "resource name is required"
  else if r.Namespace = "" then .error "namespace is required"
  else if r.Target.Name = "" then .error "target name is required"
  else if r.Target.Kind = "" then .error "target kind is required"
  else if r.OriginalReplicas < 0 then .error "original replicas cannot be negative"
  else validateWindows r.Windows 0

/-- `strPre sub l` decides whether `sub` is an initial segment of `l`. -/
def strPre : List Char → List Char → Bool
  | [], _ => true
  | _ :: _, [] => false
  | a :: s, b :: l => a == b && strPre s l

/-- `strSub sub l` decides whether `sub` occurs contiguously inside `l`. -/
def strSub (sub : List Char) : List Char → Bool
  | [] => strPre sub []
  | c :: l => strPre sub (c :: l) || strSub sub l

/-- An error message `msg` mentions `pat` when `pat` occurs verbatim in it. -/
def mentions (msg pat : String) : Bool :=
  strSub pat.toList msg.toList

/-! ## Configuration sources -/

/-- The `for i, res := range resources` validation loop shared by
`LocalProvider.Load` and `RemoteProvider.fetchConfig`: the first resource
failing validation aborts with `resource[%d] validation failed: %w`. -/
def validateList : List Resource → Nat → Except String Unit
  | [], _ => .ok ()
  | r :: rest, i =>
    match r.Validate with
    | .error e => .error ("resource[" ++ toString i ++ "] validation failed: " ++ e)
    | .ok _ => validateList rest (i + 1)

/-- `pkg/config/local.go`: `LocalProvider.Load`. The file read and the
YAML/JSON decode are external effects; their combined outcome (an error, or
the decoded resource list) is the input `parsed`. -/
def LocalProvider.Load (parsed : Except String (List Resource)) (validate : Bool) :
    Except String (List Resource) :=
  match parsed with
  | .error e => .error e
  | .ok resources =>
    if validate then
      if resources.length = 0 then .error "no resources defined"
      else
        match validateList resources 0 with
        | .error e => .error e
        | .ok _ => .ok resources
    else .ok resources

/-- `remote.go`: `cachedConfig` — a configuration with its fetch time. -/
structure CachedConfig where
  resources : List Resource
  fetchedAt : Int
  deriving Repr, DecidableEq

/-- The mutable state of a `RemoteProvider`: its configured poll interval and
the current snapshot (`r.cache`, `nil` before the first successful fetch). -/
structure RemoteState where
  pollInterval : Int
  cache : Option CachedConfig
  deriving Repr, DecidableEq

/-- `remote.go`: `RemoteProvider.fetchConfig`. The HTTP request/decode is an
external effect whose outcome is the input `fetchedDoc`: an error (transport
failure, non-200 status, or parse failure) or the decoded resource list.
Only the validation stage is the provider's own code. -/
def RemoteProvider.fetchConfig (validate : Bool) (fetchedDoc : Except String (List Resource)) :
    Except String (List Resource) :=
  match fetchedDoc with
  | .error e => .error e
  | .ok resources =>
    if validate then
      match validateList resources 0 with
      | .error e => .error e
      | .ok _ => .ok resources
    else .ok resources

/-- Outcome of one `RemoteProvider.Load` call: the returned value, the state
afterwards, whether a fetch was attempted, and whether that fetch (including
its validation stage) succeeded. -/
structure RemoteLoadOutcome where
  result : Except String (List Resource)
  state : RemoteState
  fetched : Bool
  fetchOk : Bool
  deriving Repr

/-- The slow path of `RemoteProvider.Load` (after both staleness checks have
failed): try to fetch a new config; on error fall back to the cached config
when one exists, otherwise propagate; on success store the new snapshot. -/
def remoteAttemptFetch (st : RemoteState) (validate : Bool) (now : Int)
    (fetchedDoc : Except String (List Resource)) : RemoteLoadOutcome :=
  match RemoteProvider.fetchConfig validate fetchedDoc with
  | .error e =>
    match st.cache with
    | some c => ⟨.ok c.resources, st, true, false⟩
    | none => ⟨.error e, st, true, false⟩
  | .ok resources =>
    ⟨.ok resources, { st with cache := some ⟨resources, now⟩ }, true, true⟩

/-- `remote.go`: `RemoteProvider.Load`. `now` is the instant of the call;
`time.Since(cache.fetchedAt) < pollInterval` becomes
`now - c.fetchedAt < pollInterval`. The read-locked fast-path check and the
write-locked double-check evaluate the same condition, so in this sequential
embedding they collapse into one test. -/
def RemoteProvider.Load (st : RemoteState) (validate : Bool) (now : Int)
    (fetchedDoc : Except String (List Resource)) : RemoteLoadOutcome :=
  match st.cache with
  | some c =>
    if now - c.fetchedAt < st.pollInterval then ⟨.ok c.resources, st, false, false⟩
    else remoteAttemptFetch st validate now fetchedDoc
  | none => remoteAttemptFetch st validate now fetchedDoc

/-- `pkg/config/crd.go`: `CRDProvider.Load`. The `sync.Map` contents are the
list `cache` in iteration order (every stored value is a `model.Resource`,
since `UpdateResource` is the only writer). The `Range` callback returns
`false` — halting the iteration — when a validated entry is invalid, and the
function always returns a `nil` error (modelled as the `Option String`
component being `none`). -/
def CRDProvider.Load (validate : Bool) : List Resource → List Resource × Option String
  | [] => ([], none)
  | r :: rest =>
    if validate && !(r.Validate matches .ok _) then
      -- `return false` inside `cache.Range` stops the scan; the resources
      -- collected so far (none at this point of the recursion) are returned.
      ([], none)
    else
      let (tail, _) := CRDProvider.Load validate rest
      (r :: tail, none)

/-! ## Control loop -/

/-- One evaluation pass, `scheduler.go`: `Scheduler.checkAndScale`. The
configuration load outcome is the input `loadResult`; `scale` gives the
outcome of each `scaleResource` call (a property of the external cluster).
The pass returns the Go function's result together with the trace of
`scaleResource` invocations (resource and desired replicas, in order). -/
def Scheduler.processResources (scale : Resource → Int → Except String Unit) (now : Int) :
    List Resource → List (Resource × Int)
  | [] => []
  | res :: rest =>
    let desired := res.GetDesiredReplicas now
    match scale res desired with
    | .error _ =>
      -- failure is logged and the loop `continue`s with the next resource
      (res, desired) :: Scheduler.processResources scale now rest
    | .ok _ =>
      -- success is logged and the loop proceeds with the next resource
      (res, desired) :: Scheduler.processResources scale now rest

/-- `Scheduler.checkAndScale`: load, bail out on load failure (wrapping the
error), no-op on an empty list, otherwise process every resource. -/
def Scheduler.checkAndScale (scale : Resource → Int → Except String Unit)
    (loadResult : Except String (List Resource)) (now : Int) :
    Except String Unit × List (Resource × Int) :=
  match loadResult with
  | .error e => (.error ("failed to load configuration: " ++ e), [])
  | .ok resources =>
    if resources.length = 0 then (.ok (), [])
    else (.ok (), Scheduler.processResources scale now resources)

/-- One event observed by the `select` loop in `Scheduler.Start`: context
cancellation, the stop signal, or a ticker tick (which carries the external
inputs of that tick's `checkAndScale` pass). -/
inductive LoopEvent where
  | ctxDone
  | stopSignal
  | tick (loadResult : Except String (List Resource)) (now : Int)

/-- The `for { select { ... } }` loop of `Scheduler.Start`, run over a
sequence of observed events; the value is the concatenated trace of
`scaleResource` invocations. A tick runs `checkAndScale` (its error is only
logged) and the loop continues; `ctxDone`/`stopSignal` return. -/
def Scheduler.runLoop (scale : Resource → Int → Except String Unit) :
    List LoopEvent → List (Resource × Int)
  | [] => []
  | .ctxDone :: _ => []
  | .stopSignal :: _ => []
  | .tick loadResult now :: rest =>
    (Scheduler.checkAndScale scale loadResult now).2 ++ Scheduler.runLoop scale rest

/-! ## Scaler -/

/-- A call issued by the scheduler to the Kubernetes API. -/
inductive BackendCall where
  | getDeployment (ns name : String)
  | updateDeployment (ns name : String) (replicas : Int)
  | getStatefulSet (ns name : String)
  | updateStatefulSet (ns name : String) (replicas : Int)
  deriving Repr, DecidableEq

/-- Whether a backend call mutates the cluster. -/
def BackendCall.isMutating : BackendCall → Bool
  | .updateDeployment _ _ _ => true
  | .updateStatefulSet _ _ _ => true
  | _ => false

/-- `scheduler.go`: `Scheduler.scaleDeployment`. `getResult` is the outcome of
the `Get` call (`Option Int` is the fetched object's `Spec.Replicas` pointer);
`updateResult` the outcome of the `Update` call, consulted only if one is
issued. Returns the Go result and the trace of API calls. -/
def Scheduler.scaleDeployment (getResult : Except String (Option Int))
    (updateResult : Except String Unit) (name ns : String) (replicas : Int) :
    Except String Unit × List BackendCall :=
  match getResult with
  | .error e => (.error ("failed to get deployment: " ++ e), [.getDeployment ns name])
  | .ok cur =>
    if cur = some replicas then
      (.ok (), [.getDeployment ns name])
    else
      match updateResult with
      | .error e =>
        (.error ("failed to update deployment: " ++ e),
          [.getDeployment ns name, .updateDeployment ns name replicas])
      | .ok _ =>
        (.ok (), [.getDeployment ns name, .updateDeployment ns name replicas])

/-- `scheduler.go`: `Scheduler.scaleStatefulSet` (same shape as
`scaleDeployment`, against the StatefulSets API). -/
def Scheduler.scaleStatefulSet (getResult : Except String (Option Int))
    (updateResult : Except String Unit) (name ns : String) (replicas : Int) :
    Except String Unit × List BackendCall :=
  match getResult with
  | .error e => (.error ("failed to get statefulset: " ++ e), [.getStatefulSet ns name])
  | .ok cur =>
    if cur = some replicas then
      (.ok (), [.getStatefulSet ns name])
    else
      match updateResult with
      | .error e =>
        (.error ("failed to update statefulset: " ++ e),
          [.getStatefulSet ns name, .updateStatefulSet ns name replicas])
      | .ok _ =>
        (.ok (), [.getStatefulSet ns name, .updateStatefulSet ns name replicas])

/-- `scheduler.go`: `Scheduler.scaleResource` — dispatch on `Target.Kind`;
an unsupported kind fails without any API call. -/
def Scheduler.scaleResource (res : Resource) (getResult : Except String (Option Int))
    (updateResult : Except String Unit) (replicas : Int) :
    Except String Unit × List BackendCall :=
  if res.Target.Kind = "Deployment" then
    Scheduler.scaleDeployment getResult updateResult res.Target.Name res.Namespace replicas
  else if res.Target.Kind = "StatefulSet" then
    Scheduler.scaleStatefulSet getResult updateResult res.Target.Name res.Namespace replicas
  else
    (.error ("unsupported resource kind: " ++ res.Target.Kind), [])

/-! ## Helper lemmas -/

theorem firstActiveReplicas_of_all_inactive (now orig : Int) :
    ∀ l : List ScalingWindow, (∀ w ∈ l, w.IsActive now = false) →
      firstActiveReplicas now orig l = orig := by
  intro l hl
  induction l with
  | nil => rfl
  | cons w ws ih =>
    have hw : w.IsActive now = false := hl w (List.mem_cons_self w ws)
    simp only [firstActiveReplicas, hw, if_false, Bool.false_eq_true]
    exact ih fun x hx => hl x (List.mem_cons_of_mem w hx)

theorem firstActiveReplicas_of_first_active (now orig : Int) :
    ∀ (l : List ScalingWindow) (i : Nat) (h : i < l.length),
      (∀ j (hj : j < l.length), j < i → (l.get ⟨j, hj⟩).IsActive now = false) →
      (l.get ⟨i, h⟩).IsActive now = true →
      firstActiveReplicas now orig l = (l.get ⟨i, h⟩).Replicas := by
  intro l
  induction l with
  | nil => intro i h; exact absurd h (Nat.not_lt_zero i)
  | cons w ws ih =>
    intro i h hprev hact
    cases i with
    | zero =>
      simp only [List.get] at hact ⊢
      simp [firstActiveReplicas, hact]
    | succ k =>
      have hw : w.IsActive now = false :=
        hprev 0 (Nat.succ_pos _) (Nat.succ_pos _)
      simp only [List.get] at hact ⊢
      simp only [firstActiveReplicas, hw, if_false, Bool.false_eq_true]
      exact ih k (Nat.lt_of_succ_lt_succ h)
        (fun j hj hlt => hprev (j + 1) (Nat.succ_lt_succ hj) (Nat.succ_lt_succ hlt)) hact

theorem strPre_append (p r : List Char) : strPre p (p ++ r) = true := by
  induction p with
  | nil => rfl
  | cons a s ih => simp [strPre, ih]

theorem strSub_at_front (p r : List Char) : strSub p (p ++ r) = true := by
  cases p with
  | nil =>
    cases r with
    | nil => rfl
    | cons c l => simp [strSub, strPre]
  | cons a s => simp [strSub, strPre, strPre_append]

theorem mentions_front_pattern (pre rest : String) : mentions (pre ++ rest) pre = true := by
  unfold mentions
  have h : (pre ++ rest).toList = pre.toList ++ rest.toList := by simp [String.toList]
  rw [h]
  exact strSub_at_front _ _

theorem validateWindows_error_at :
    ∀ (l : List ScalingWindow) (i : Nat) (h : i < l.length) (k : Nat),
      (∀ j (hj : j < l.length), j < i → (l.get ⟨j, hj⟩).Validate = .ok ()) →
      ((l.get ⟨i, h⟩).Validate).isOk = false →
      ∃ e, validateWindows l k =
        .error ("window " ++ toString (k + i) ++ " is invalid: " ++ e) := by
  intro l
  induction l with
  | nil => intro i h; exact absurd h (Nat.not_lt_zero i)
  | cons w ws ih =>
    intro i h k hprev hbad
    cases i with
    | zero =>
      simp only [List.get] at hbad
      cases hw : w.Validate with
      | ok u => rw [hw] at hbad; simp [Except.isOk, Except.toBool] at hbad
      | error e =>
        exact ⟨e, by simp [validateWindows, hw]⟩
    | succ m =>
      have hw : w.Validate = .ok () := hprev 0 (Nat.succ_pos _) (Nat.succ_pos _)
      simp only [List.get] at hbad
      have hrec := ih m (Nat.lt_of_succ_lt_succ h) (k + 1)
        (fun j hj hlt => hprev (j + 1) (Nat.succ_lt_succ hj) (Nat.succ_lt_succ hlt)) hbad
      obtain ⟨e, he⟩ := hrec
      refine ⟨e, ?_⟩
      have hk : k + 1 + m = k + (m + 1) := by omega
      rw [hk] at he
      simpa [validateWindows, hw] using he

/-! ## Claim theorems -/

/-- C1: `GetDesiredReplicas` scans the windows in order and returns the
replicas of the first window active at `now`; a window is active iff
`startTime ≤ now < endTime` (so at `now = endTime` it is inactive); if no
window is active — in particular when the list is empty — it returns
`OriginalReplicas`, and for overlapping active windows the first one in
sequence order wins. -/
theorem c1_getDesiredReplicas_first_active_wins (r : Resource) (now : Int) :
    (∀ w : ScalingWindow, w.IsActive now = true ↔ (w.StartTime ≤ now ∧ now < w.EndTime))
    ∧ (∀ w : ScalingWindow, now = w.EndTime → w.IsActive now = false)
    ∧ ((∀ w ∈ r.Windows, w.IsActive now = false) →
        r.GetDesiredReplicas now = r.OriginalReplicas)
    ∧ (∀ i (h : i < r.Windows.length),
        (∀ j (hj : j < r.Windows.length), j < i →
          (r.Windows.get ⟨j, hj⟩).IsActive now = false) →
        (r.Windows.get ⟨i, h⟩).IsActive now = true →
        r.GetDesiredReplicas now = (r.Windows.get ⟨i, h⟩).Replicas) := by
  refine ⟨?_, ?_, ?_, ?_⟩
  · intro w
    simp [ScalingWindow.IsActive, ge_iff_le, and_comm]
  · intro w hend
    simp [ScalingWindow.IsActive, hend]
  · intro hall
    exact firstActiveReplicas_of_all_inactive now r.OriginalReplicas r.Windows hall
  · intro i h hprev hact
    exact firstActiveReplicas_of_first_active now r.OriginalReplicas r.Windows i h hprev hact

/-- A concrete resource with two overlapping windows, used to witness C1. -/
def overlapRes : Resource :=
  { Name := "web", Namespace := "default",
    Target := ⟨"web", "Deployment", "apps/v1"⟩,
    OriginalReplicas := 2,
    Windows := [⟨0, 10, 5⟩, ⟨0, 20, 7⟩] }

/-- C1 witness: at `now = 3` both windows of `overlapRes` are active and the
first one's replica count (5) is returned. -/
theorem c1_witness : overlapRes.GetDesiredReplicas 3 = 5 := by
  have h := (c1_getDesiredReplicas_first_active_wins overlapRes 3).2.2.2 0 (by decide)
    (fun j hj hlt => absurd hlt (Nat.not_lt_zero j)) (by decide)
  exact h.trans (by decide)

/-- C7: window-level validation fails exactly when `startTime ≥ endTime` or
`replicas < 0`, mentioning "start time" and "end time" in the first case and
"negative" in the second; a resource missing its name fails mentioning
"name is required"; and when the first failing check is a window at index `i`,
the resource-level error names `window i`. -/
theorem c7_validation_error_messages :
    (∀ w : ScalingWindow, (w.Validate).isOk = true ↔
      (w.StartTime < w.EndTime ∧ 0 ≤ w.Replicas))
    ∧ (∀ w : ScalingWindow, w.EndTime ≤ w.StartTime →
        ∃ e, w.Validate = .error e ∧ mentions e "start time" = true ∧
          mentions e "end time" = true)
    ∧ (∀ w : ScalingWindow, w.StartTime < w.EndTime → w.Replicas < 0 →
        ∃ e, w.Validate = .error e ∧ mentions e "negative" = true)
    ∧ (∀ r : Resource, r.Name = "" →
        ∃ e, r.Validate = .error e ∧ mentions e "name is required" = true)
    ∧ (∀ (r : Resource) (i : Nat) (h : i < r.Windows.length),
        r.Name ≠ "" → r.Namespace ≠ "" → r.Target.Name ≠ "" → r.Target.Kind ≠ "" →
        0 ≤ r.OriginalReplicas →
        (∀ j (hj : j < r.Windows.length), j < i →
          (r.Windows.get ⟨j, hj⟩).Validate = .ok ()) →
        ((r.Windows.get ⟨i, h⟩).Validate).isOk = false →
        ∃ e, r.Validate = .error e ∧
          mentions e ("window " ++ toString i) = true) := by
  refine ⟨?_, ?_, ?_, ?_, ?_⟩
  · intro w
    unfold ScalingWindow.Validate
    split
    · next hge => simp [Except.isOk, Except.toBool]; omega
    · next hlt =>
      split
      · next hneg => simp [Except.isOk, Except.toBool]; omega
      · next hpos => simp [Except.isOk, Except.toBool]; omega
  · intro w hle
    refine ⟨"start time must be before end time", ?_, by decide, by decide⟩
    unfold ScalingWindow.Validate
    rw [if_pos hle]
  · intro w hlt hneg
    refine ⟨"replicas cannot be negative", ?_, by decide⟩
    unfold ScalingWindow.Validate
    rw [if_neg (by omega), if_pos hneg]
  · intro r hname
    refine ⟨"resource name is required", ?_, by decide⟩
    unfold Resource.Validate
    rw [if_pos hname]
  · intro r i h hn hns htn htk horig hprev hbad
    obtain ⟨e, he⟩ := validateWindows_error_at r.Windows i h 0 hprev hbad
    rw [Nat.zero_add] at he
    refine ⟨"window " ++ toString i ++ " is invalid: " ++ e, ?_, ?_⟩
    · unfold Resource.Validate
      rw [if_neg hn, if_neg hns, if_neg htn, if_neg htk, if_neg (by omega)]
      exact he
    · have hassoc : "window " ++ toString i ++ " is invalid: " ++ e =
          ("window " ++ toString i) ++ (" is invalid: " ++ e) := by
        simp [String.append_assoc]
      rw [hassoc]
      exact mentions_front_pattern _ _

/-- A resource whose second window is invalid, used to witness C7. -/
def badWindowRes : Resource :=
  { Name := "db", Namespace := "default",
    Target := ⟨"db", "StatefulSet", "apps/v1"⟩,
    OriginalReplicas := 1,
    Windows := [⟨0, 10, 1⟩, ⟨5, 5, 1⟩] }

/-- C7 witness: the spec's three validation examples evaluated concretely,
plus `badWindowRes` whose error names window 1. -/
theorem c7_witness :
    (∃ e, ScalingWindow.Validate ⟨200, 100, 3⟩ = .error e ∧
      mentions e "start time" = true ∧ mentions e "end time" = true)
    ∧ (∃ e, ScalingWindow.Validate ⟨100, 200, -1⟩ = .error e ∧
        mentions e "negative" = true)
    ∧ (∃ e, Resource.Validate ⟨"", "default", ⟨"t", "Deployment", "v1"⟩, 1, []⟩ = .error e ∧
        mentions e "name is required" = true)
    ∧ (∃ e, badWindowRes.Validate = .error e ∧
        mentions e ("window " ++ toString 1) = true) := by
  refine ⟨?_, ?_, ?_, ?_⟩
  · exact c7_validation_error_messages.2.1 ⟨200, 100, 3⟩ (by decide)
  · exact c7_validation_error_messages.2.2.1 ⟨100, 200, -1⟩ (by decide) (by decide)
  · exact c7_validation_error_messages.2.2.2.1 _ rfl
  · refine c7_validation_error_messages.2.2.2.2 badWindowRes 1 (by decide)
      (by decide) (by decide) (by decide) (by decide) (by decide)
      ?_ (by decide)
    intro j hj hlt
    have hj0 : j = 0 := by omega
    subst hj0
    rfl

/-- C10: `CRDProvider.Load` never returns an error — for every cache contents
and either value of the validate flag the error component is `nil`. -/
theorem c10_crd_load_never_errors (validate : Bool) (cache : List Resource) :
    (CRDProvider.Load validate cache).2 = none := by
  induction cache with
  | nil => rfl
  | cons r rest ih =>
    unfold CRDProvider.Load
    split
    · rfl
    · rcases hrec : CRDProvider.Load validate rest with ⟨tail, err⟩
      simp [hrec]

/-- A resource that fails resource-level validation (empty name). -/
def invalidRes : Resource :=
  { Name := "", Namespace := "default",
    Target := ⟨"t", "Deployment", "apps/v1"⟩,
    OriginalReplicas := 1, Windows := [] }

/-- A resource that passes resource-level validation. -/
def validRes : Resource :=
  { Name := "ok", Namespace := "default",
    Target := ⟨"ok", "Deployment", "apps/v1"⟩,
    OriginalReplicas := 1, Windows := [] }

/-- C2 failing input: with `validate = true` and an invalid entry ahead of a
valid one in iteration order, `CRDProvider.Load` returns the empty list — the
`return false` in the `Range` callback halts the scan, so the valid sibling
`validRes` is *not* visible in the result even though it passes validation. -/
theorem c2_invalid_entry_blocks_valid_sibling :
    CRDProvider.Load true [invalidRes, validRes] = ([], none)
    ∧ validRes.Validate = .ok ()
    ∧ validRes ∉ (CRDProvider.Load true [invalidRes, validRes]).1 := by
  refine ⟨rfl, rfl, by decide⟩

/-- The trace of `scaleResource` invocations made by `checkAndScale` does not
depend on the outcomes of those invocations: every resource is processed. -/
theorem processResources_eq_map (scale : Resource → Int → Except String Unit) (now : Int) :
    ∀ l : List Resource,
      Scheduler.processResources scale now l =
        l.map (fun res => (res, res.GetDesiredReplicas now)) := by
  intro l
  induction l with
  | nil => rfl
  | cons r rest ih =>
    simp only [Scheduler.processResources, List.map]
    cases scale r (r.GetDesiredReplicas now) <;> simp [ih]

/-- C4: if the configuration load fails, the pass makes no `scaleResource`
call, returns the wrapped load error, and the surrounding loop continues with
the next event; if the load succeeds, every returned resource receives a
`scaleResource` invocation with its desired replica count, in order, whatever
the outcomes of the individual scale calls are (`scale` is universally
quantified, so one resource's failure never suppresses a later invocation). -/
theorem c4_pass_failure_isolation (scale : Resource → Int → Except String Unit)
    (loadResult : Except String (List Resource)) (now : Int) (rest : List LoopEvent) :
    (∀ e, loadResult = .error e →
      Scheduler.checkAndScale scale loadResult now =
        (.error ("failed to load configuration: " ++ e), [])
      ∧ Scheduler.runLoop scale (.tick loadResult now :: rest) =
          Scheduler.runLoop scale rest)
    ∧ (∀ rs, loadResult = .ok rs →
        (Scheduler.checkAndScale scale loadResult now).2 =
          rs.map (fun res => (res, res.GetDesiredReplicas now))) := by
  constructor
  · intro e he
    subst he
    exact ⟨rfl, rfl⟩
  · intro rs hrs
    subst hrs
    by_cases hlen : rs.length = 0
    · rw [List.length_eq_zero] at hlen
      subst hlen
      rfl
    · simp only [Scheduler.checkAndScale, if_neg hlen]
      exact processResources_eq_map scale now rs

/-- C4 witness: a failing load produces an empty call trace, and a successful
load of two resources produces both calls even though every scale call fails. -/
theorem c4_witness :
    Scheduler.checkAndScale (fun _ _ => .error "boom") (.error "down") 3 =
      (.error ("failed to load configuration: " ++ "down"), [])
    ∧ (Scheduler.checkAndScale (fun _ _ => .error "boom")
        (.ok [overlapRes, badWindowRes]) 3).2 = [(overlapRes, 5), (badWindowRes, 1)] := by
  constructor
  · exact ((c4_pass_failure_isolation (fun _ _ => .error "boom") (.error "down") 3 []).1
      "down" rfl).1
  · have h := (c4_pass_failure_isolation (fun _ _ => .error "boom")
      (.ok [overlapRes, badWindowRes]) 3 []).2 [overlapRes, badWindowRes] rfl
    rw [h]
    decide

/-- C5: when `RemoteProvider.Load` reaches the fetch path (no fresh snapshot)
and the fetch fails, it returns the previous snapshot's resources with no
error when a snapshot exists — leaving the stored snapshot unchanged — and
returns the fetch error exactly when no snapshot exists. -/
theorem c5_stale_snapshot_fallback (st : RemoteState) (validate : Bool) (now : Int)
    (fetchedDoc : Except String (List Resource)) :
    (∀ c, st.cache = some c → ¬ now - c.fetchedAt < st.pollInterval →
      (RemoteProvider.fetchConfig validate fetchedDoc).isOk = false →
      RemoteProvider.Load st validate now fetchedDoc = ⟨.ok c.resources, st, true, false⟩)
    ∧ (st.cache = none →
        ∀ e, RemoteProvider.fetchConfig validate fetchedDoc = .error e →
          RemoteProvider.Load st validate now fetchedDoc = ⟨.error e, st, true, false⟩) := by
  constructor
  · intro c hc hstale hfail
    cases hf : RemoteProvider.fetchConfig validate fetchedDoc with
    | error e => simp only [RemoteProvider.Load, hc, if_neg hstale, remoteAttemptFetch, hf]
    | ok rs => rw [hf] at hfail; simp [Except.isOk, Except.toBool] at hfail
  · intro hc e hfail
    simp only [RemoteProvider.Load, hc, remoteAttemptFetch, hfail]

/-- C5 witness: with a stale snapshot and a failing fetch the snapshot is
served; with no snapshot the fetch error propagates. -/
theorem c5_witness :
    RemoteProvider.Load ⟨10, some ⟨[validRes], 0⟩⟩ true 50 (.error "http 500") =
      ⟨.ok [validRes], ⟨10, some ⟨[validRes], 0⟩⟩, true, false⟩
    ∧ RemoteProvider.Load ⟨10, none⟩ true 50 (.error "http 500") =
        ⟨.error "http 500", ⟨10, none⟩, true, false⟩ := by
  constructor
  · exact (c5_stale_snapshot_fallback ⟨10, some ⟨[validRes], 0⟩⟩ true 50 (.error "http 500")).1
      ⟨[validRes], 0⟩ rfl (by decide) rfl
  · exact (c5_stale_snapshot_fallback ⟨10, none⟩ true 50 (.error "http 500")).2 rfl
      "http 500" rfl

/-- C6 counterexample: two `load` calls 5 time units apart (pollInterval 10)
whose fetches both fail, starting from an empty snapshot, each perform a
network fetch — so "two `load` calls within one pollInterval produce at most
one network fetch" is false as a universal statement. -/
theorem c6_counterexample_two_failed_fetches :
    ((5 : Int) - 0 < (10 : Int))
    ∧ (RemoteProvider.Load ⟨10, none⟩ true 0 (.error "down")).fetched = true
    ∧ (RemoteProvider.Load (RemoteProvider.Load ⟨10, none⟩ true 0 (.error "down")).state
        true 5 (.error "down")).fetched = true := by
  exact ⟨by decide, rfl, rfl⟩

/-- C6 (amended): a snapshot younger than `pollInterval` is served without any
fetch and without touching the state; and if one `load` call performs a
*successful* fetch, a second call within `pollInterval` of it performs no
fetch at all — so two calls within one `pollInterval` produce at most one
successful fetch. -/
theorem c6_fresh_cache_serves_without_fetch (st : RemoteState) (validate : Bool)
    (now : Int) (fetchedDoc : Except String (List Resource)) :
    (∀ c, st.cache = some c → now - c.fetchedAt < st.pollInterval →
      RemoteProvider.Load st validate now fetchedDoc = ⟨.ok c.resources, st, false, false⟩)
    ∧ (∀ (v2 : Bool) (now2 : Int) (doc2 : Except String (List Resource)),
        now2 - now < st.pollInterval →
        (RemoteProvider.Load st validate now fetchedDoc).fetchOk = true →
        (RemoteProvider.Load (RemoteProvider.Load st validate now fetchedDoc).state
          v2 now2 doc2).fetched = false) := by
  constructor
  · intro c hc hfresh
    simp only [RemoteProvider.Load, hc, if_pos hfresh]
  · intro v2 now2 doc2 hclose hok
    have hstep : ∀ o : RemoteLoadOutcome,
        RemoteProvider.Load st validate now fetchedDoc = o → o.fetchOk = true →
        o.state = ⟨st.pollInterval, some ⟨(match o.result with
          | .ok rs => rs
          | .error _ => []), now⟩⟩ ∧ (match o.result with
          | .ok _ => True
          | .error _ => False) := by
      intro o ho hook
      cases hc : st.cache with
      | some c =>
        by_cases hfresh : now - c.fetchedAt < st.pollInterval
        · simp only [RemoteProvider.Load, hc, if_pos hfresh] at ho
          rw [← ho] at hook
          simp at hook
        · cases hf : RemoteProvider.fetchConfig validate fetchedDoc with
          | error e =>
            simp only [RemoteProvider.Load, hc, if_neg hfresh, remoteAttemptFetch, hf] at ho
            rw [← ho] at hook
            simp at hook
          | ok rs =>
            simp only [RemoteProvider.Load, hc, if_neg hfresh, remoteAttemptFetch, hf] at ho
            rw [← ho]
            exact ⟨rfl, trivial⟩
      | none =>
        cases hf : RemoteProvider.fetchConfig validate fetchedDoc with
        | error e =>
          simp only [RemoteProvider.Load, hc, remoteAttemptFetch, hf] at ho
          rw [← ho] at hook
          simp at hook
        | ok rs =>
          simp only [RemoteProvider.Load, hc, remoteAttemptFetch, hf] at ho
          rw [← ho]
          exact ⟨rfl, trivial⟩
    obtain ⟨hstate, _⟩ := hstep _ rfl hok
    rw [hstate]
    simp only [RemoteProvider.Load]
    rw [if_pos (by simpa using hclose)]

/-- C6 witness: a fresh snapshot (age 5 < pollInterval 10) is served without a
fetch; and after a successful fetch at time 0, a second call at time 5 does
not fetch. -/
theorem c6_witness :
    RemoteProvider.Load ⟨10, some ⟨[validRes], 0⟩⟩ true 5 (.error "down") =
      ⟨.ok [validRes], ⟨10, some ⟨[validRes], 0⟩⟩, false, false⟩
    ∧ (RemoteProvider.Load (RemoteProvider.Load ⟨10, none⟩ true 0 (.ok [validRes])).state
        true 5 (.ok [validRes])).fetched = false := by
  constructor
  · exact (c6_fresh_cache_serves_without_fetch ⟨10, some ⟨[validRes], 0⟩⟩ true 5
      (.error "down")).1 ⟨[validRes], 0⟩ rfl (by decide)
  · exact (c6_fresh_cache_serves_without_fetch ⟨10, none⟩ true 0 (.ok [validRes])).2
      true 5 (.ok [validRes]) (by decide) rfl

theorem validateList_ok_forall :
    ∀ (l : List Resource) (i : Nat), validateList l i = .ok () →
      ∀ r ∈ l, r.Validate = .ok () := by
  intro l
  induction l with
  | nil => intro i _ r hr; cases hr
  | cons a rest ih =>
    intro i hok r hr
    unfold validateList at hok
    cases hv : a.Validate with
    | error e => rw [hv] at hok; cases hok
    | ok u =>
      rw [hv] at hok
      rcases List.mem_cons.mp hr with h | h
      · subst h; cases u; exact hv
      · exact ih (i + 1) hok r h

theorem validateList_error_of_mem :
    ∀ (l : List Resource) (i : Nat) (r : Resource), r ∈ l →
      (r.Validate).isOk = false → (validateList l i).isOk = false := by
  intro l
  induction l with
  | nil => intro i r hr; cases hr
  | cons a rest ih =>
    intro i r hr hbad
    unfold validateList
    cases hv : a.Validate with
    | error e => simp [Except.isOk, Except.toBool]
    | ok u =>
      rcases List.mem_cons.mp hr with h | h
      · subst h; rw [hv] at hbad; simp [Except.isOk, Except.toBool] at hbad
      · exact ih (i + 1) r h hbad

theorem fetchConfig_ok_all_valid (fetchedDoc : Except String (List Resource))
    (rs : List Resource) :
    RemoteProvider.fetchConfig true fetchedDoc = .ok rs →
    ∀ r ∈ rs, r.Validate = .ok () := by
  intro h
  cases fetchedDoc with
  | error e => cases h
  | ok l =>
    simp only [RemoteProvider.fetchConfig, if_pos rfl] at h
    cases hv : validateList l 0 with
    | error e => rw [hv] at h; cases h
    | ok u =>
      rw [hv] at h
      cases h
      cases u
      exact validateList_ok_forall rs 0 hv

/-- C3 counterexample: a prior `Load(validate=false)` on the
CachedRemoteSource caches an unvalidated resource; a `load(validate=true)`
within `pollInterval` then succeeds and returns that resource even though it
fails resource-level validation — so the claim's guarantee does not hold for
every sequence of prior calls. -/
theorem c3_counterexample_unvalidated_cache_hit :
    ((RemoteProvider.Load
        (RemoteProvider.Load ⟨10, none⟩ false 0 (.ok [invalidRes])).state
        true 5 (.error "down")).result = .ok [invalidRes])
    ∧ (invalidRes.Validate).isOk = false := by
  exact ⟨rfl, rfl⟩

/-- C3 (amended): for the StaticSource (`LocalProvider`) the claim holds as
stated: a successful `Load(validate=true)` returns only resources that passed
validation, and any invalid resource in the parsed document fails the whole
call. For the CachedRemoteSource the guarantee is conditional on the snapshot:
if every cached resource has passed validation (as is the case when all prior
fetches ran with `validate=true`), then a successful `load(validate=true)`
returns only validated resources and re-establishes that snapshot invariant —
but a prior `load(validate=false)` can cache unvalidated resources which a
later `load(validate=true)` serves, and a validation failure during a fetch
need not fail the whole call (the stale snapshot is served instead). -/
theorem c3_validate_guarantees (parsed : Except String (List Resource))
    (st : RemoteState) (now : Int) (fetchedDoc : Except String (List Resource)) :
    (∀ rs, LocalProvider.Load parsed true = .ok rs → ∀ r ∈ rs, r.Validate = .ok ())
    ∧ (∀ rs, parsed = .ok rs → (∃ r ∈ rs, (r.Validate).isOk = false) →
        (LocalProvider.Load parsed true).isOk = false)
    ∧ ((∀ c, st.cache = some c → ∀ r ∈ c.resources, r.Validate = .ok ()) →
        ∀ rs, (RemoteProvider.Load st true now fetchedDoc).result = .ok rs →
          (∀ r ∈ rs, r.Validate = .ok ())
          ∧ (∀ c, (RemoteProvider.Load st true now fetchedDoc).state.cache = some c →
              ∀ r ∈ c.resources, r.Validate = .ok ())) := by
  refine ⟨?_, ?_, ?_⟩
  · intro rs hok r hr
    cases parsed with
    | error e => cases hok
    | ok l =>
      simp only [LocalProvider.Load, if_pos rfl] at hok
      by_cases hlen : l.length = 0
      · rw [if_pos hlen] at hok; cases hok
      · rw [if_neg hlen] at hok
        cases hv : validateList l 0 with
        | error e => rw [hv] at hok; cases hok
        | ok u =>
          rw [hv] at hok
          cases hok
          cases u
          exact validateList_ok_forall rs 0 hv r hr
  · intro rs hp hex
    subst hp
    obtain ⟨r, hr, hbad⟩ := hex
    have hlist := validateList_error_of_mem rs 0 r hr hbad
    simp only [LocalProvider.Load, if_pos rfl]
    by_cases hlen : rs.length = 0
    · rw [if_pos hlen]; rfl
    · rw [if_neg hlen]
      cases hv : validateList rs 0 with
      | error e => rfl
      | ok u => rw [hv] at hlist; simp [Except.isOk, Except.toBool] at hlist
  · intro hinv rs hres
    cases hc : st.cache with
    | some c =>
      by_cases hfresh : now - c.fetchedAt < st.pollInterval
      · simp only [RemoteProvider.Load, hc, if_pos hfresh] at hres ⊢
        cases hres
        refine ⟨hinv c hc, ?_⟩
        intro c' hc'
        cases hc'
        exact hinv c hc
      · cases hf : RemoteProvider.fetchConfig true fetchedDoc with
        | error e =>
          simp only [RemoteProvider.Load, hc, if_neg hfresh, remoteAttemptFetch, hf]
            at hres ⊢
          cases hres
          refine ⟨hinv c hc, ?_⟩
          intro c' hc'
          cases hc'
          exact hinv c hc
        | ok l =>
          simp only [RemoteProvider.Load, hc, if_neg hfresh, remoteAttemptFetch, hf]
            at hres ⊢
          cases hres
          refine ⟨fetchConfig_ok_all_valid fetchedDoc rs hf, ?_⟩
          intro c' hc'
          cases hc'
          exact fetchConfig_ok_all_valid fetchedDoc rs hf
    | none =>
      cases hf : RemoteProvider.fetchConfig true fetchedDoc with
      | error e =>
        simp only [RemoteProvider.Load, hc, remoteAttemptFetch, hf] at hres
        cases hres
      | ok l =>
        simp only [RemoteProvider.Load, hc, remoteAttemptFetch, hf] at hres ⊢
        cases hres
        refine ⟨fetchConfig_ok_all_valid fetchedDoc rs hf, ?_⟩
        intro c' hc'
        cases hc'
        exact fetchConfig_ok_all_valid fetchedDoc rs hf

/-- C3 witness: the local source accepts a valid document and rejects one
containing an invalid resource; the remote source starting from an empty
snapshot and fetching a valid document returns only validated resources. -/
theorem c3_witness :
    validRes.Validate = .ok ()
    ∧ (LocalProvider.Load (.ok [invalidRes]) true).isOk = false := by
  constructor
  · exact (c3_validate_guarantees (.ok [validRes]) ⟨10, none⟩ 0 (.ok [validRes])).1
      [validRes] rfl validRes (List.mem_singleton.mpr rfl)
  · exact (c3_validate_guarantees (.ok [invalidRes]) ⟨10, none⟩ 0 (.ok [])).2.1
      [invalidRes] rfl ⟨invalidRes, List.mem_singleton.mpr rfl, rfl⟩

/-- C8: for a Deployment or StatefulSet target whose current replica count
already equals the requested count, the scale operation succeeds and the call
trace contains no mutating (Update) call; for any other kind the operation
fails with an unsupported-kind error and an empty call trace (the backend is
never contacted). -/
theorem c8_scale_idempotent_and_unsupported_kind (res : Resource)
    (getResult : Except String (Option Int)) (updateResult : Except String Unit)
    (replicas : Int) :
    ((res.Target.Kind = "Deployment" ∨ res.Target.Kind = "StatefulSet") →
      getResult = .ok (some replicas) →
      (Scheduler.scaleResource res getResult updateResult replicas).1 = .ok ()
      ∧ ∀ call ∈ (Scheduler.scaleResource res getResult updateResult replicas).2,
          call.isMutating = false)
    ∧ (res.Target.Kind ≠ "Deployment" → res.Target.Kind ≠ "StatefulSet" →
        Scheduler.scaleResource res getResult updateResult replicas =
          (.error ("unsupported resource kind: " ++ res.Target.Kind), [])) := by
  constructor
  · intro hkind hget
    subst hget
    rcases hkind with hk | hk
    · simp only [Scheduler.scaleResource, if_pos hk, Scheduler.scaleDeployment, if_pos rfl]
      refine ⟨rfl, ?_⟩
      intro call hcall
      rcases List.mem_singleton.mp hcall with h
      subst h
      rfl
    · by_cases hdep : res.Target.Kind = "Deployment"
      · exact absurd (hdep.symm.trans hk) (by decide)
      · simp only [Scheduler.scaleResource, if_neg hdep, if_pos hk,
          Scheduler.scaleStatefulSet, if_pos rfl]
        refine ⟨rfl, ?_⟩
        intro call hcall
        rcases List.mem_singleton.mp hcall with h
        subst h
        rfl
  · intro hdep hsts
    simp only [Scheduler.scaleResource, if_neg hdep, if_neg hsts]

/-- C8 witness: a Deployment already at the requested count is a no-op
success; an unrecognized kind fails without any backend call. -/
theorem c8_witness :
    (Scheduler.scaleResource overlapRes (.ok (some 5)) (.ok ()) 5).1 = .ok ()
    ∧ Scheduler.scaleResource
        ⟨"c", "default", ⟨"c", "CronJob", "batch/v1"⟩, 1, []⟩
        (.ok (some 1)) (.ok ()) 1 =
      (.error ("unsupported resource kind: " ++ "CronJob"), []) := by
  constructor
  · exact ((c8_scale_idempotent_and_unsupported_kind overlapRes (.ok (some 5)) (.ok ()) 5).1
      (Or.inl rfl) rfl).1
  · exact (c8_scale_idempotent_and_unsupported_kind
      ⟨"c", "default", ⟨"c", "CronJob", "batch/v1"⟩, 1, []⟩ (.ok (some 1)) (.ok ()) 1).2
      (by decide) (by decide)

end K8schedul8r
